import Mathlib

/-!
Verification of the Genie-RSS feed resolution pipeline.

The definitions below are shallow embeddings of the backend source:
`src/backend/src/utils/scraper.js` (URL safety validator and content
scraper), `src/backend/src/services/rssFetcher.js` (feed parser and
cache), `src/backend/src/services/feedprocess.js` (intel pipeline:
`parseRSS`, `discoverFeedUrls`, `smartFetch`), the feed discovery
service (`discoverRssFeed`), `src/backend/src/routes/rss.js` (the
resolve route) and `src/backend/src/routes/intel.js` (batch webhook
forwarding).  External I/O (HTTP fetches, the XML parser front end,
the webhook) is modelled by explicit oracle arguments; all control
flow, string processing and cache logic is translated from the source.
-/

/-! ## JavaScript string primitives -/

/-- Whitespace recognised by the JavaScript `String.prototype.trim`
(space, tab, line feed, carriage return, vertical tab, form feed). -/
def isJsWs (c : Char) : Bool :=
  c == ' ' || c == '\t' || c == '\n' || c == '\r' ||
  c == Char.ofNat 11 || c == Char.ofNat 12

/-- Drop trailing characters satisfying `p`. -/
def dropWhileEnd (p : Char → Bool) (l : List Char) : List Char :=
  (l.reverse.dropWhile p).reverse

/-- List-level body of `jsTrim`. -/
def trimList (l : List Char) : List Char :=
  dropWhileEnd isJsWs (l.dropWhile isJsWs)

/-- Models `urlString.trim()`. -/
def jsTrim (s : String) : String :=
  ⟨trimList s.data⟩

/-- Models `s.slice(0, n)` for a non-negative bound. -/
def jsSlice (s : String) (n : Nat) : String :=
  ⟨s.data.take n⟩

/-- Models `s.toLowerCase()` on the ASCII hostnames used here. -/
def jsToLower (s : String) : String :=
  ⟨s.data.map Char.toLower⟩

/-- `pre` is a prefix of `s`: models `/^pre/.test(s)` for a literal
pattern, and `s.startsWith(pre)`. -/
def strStarts (s pre : String) : Bool :=
  pre.data.isPrefixOf s.data

/-- `suf` is a suffix of `s`: models `s.endsWith(suf)`. -/
def strEnds (s suf : String) : Bool :=
  suf.data.reverse.isPrefixOf s.data.reverse

/-- Split a character list at every occurrence of `c` (the pieces do not
contain `c`); models `String.prototype.split` on a single-character
separator. -/
def splitOnChar (c : Char) : List Char → List (List Char)
  | [] => [[]]
  | x :: xs =>
    let r := splitOnChar c xs
    if x == c then [] :: r
    else
      match r with
      | [] => [[x]]
      | h :: t => (x :: h) :: t

/-- Join pieces with the separator `c`; inverse of `splitOnChar`. -/
def joinWith (c : Char) : List (List Char) → List Char
  | [] => []
  | [x] => x
  | x :: xs => x ++ c :: joinWith c xs

/-- `c` lies in the inclusive character range `lo`–`hi`; models a regex
character class such as `[4-9]`. -/
def charBetween (lo hi c : Char) : Bool :=
  decide (lo ≤ c) && decide (c ≤ hi)

/-- First truthy value of a chain `a || b || ...` of possibly-undefined
string expressions (`none` = undefined, the empty string is falsy). -/
def firstTruthy : List (Option String) → Option String
  | [] => none
  | x :: rest =>
    match x with
    | some s => if s == "" then firstTruthy rest else some s
    | none => firstTruthy rest

/-- Models `a || b || ... || ""`. -/
def jsOrStr (xs : List (Option String)) : String :=
  (firstTruthy xs).getD ""

/-- Models `a || dflt` for a possibly-undefined string `a` and a string
default. -/
def jsOr (a : Option String) (dflt : String) : String :=
  jsOrStr [a, some dflt]

/-- Models `a || b || ... || last` where the final fallback is taken
verbatim even when falsy. -/
def jsOrChain (xs : List (Option String)) (last : Option String) : Option String :=
  match firstTruthy xs with
  | some s => some s
  | none => last

/-! ## URL safety validator (`src/backend/src/utils/scraper.js`, urlValidator part)

`new URL(...)` is an external WHATWG parser; the validator only consults
the `protocol`, `hostname`, `username` and `password` components of its
result, so a parsed URL is modelled by exactly those fields. -/

/-- The components of a parsed URL consulted by the validator. -/
structure ParsedUrl where
  protocol : String
  hostname : String
  username : String
  password : String
deriving DecidableEq, Repr

/-- Outcome of `validateUrl`: the parsed URL on success, or the thrown
`UrlValidationError` with its `message` and `code`. -/
inductive Verdict where
  | accepted (url : ParsedUrl)
  | rejected (message code : String)
deriving DecidableEq, Repr

/-- Models the WHATWG `new URL` constructor on the absolute
`scheme://[user[:pass]@]host[:port][/...]` shapes exercised in this
development: the scheme must be alphabetic and followed by `://`, the
authority ends at the first `/`, `?` or `#`, userinfo precedes the last
`@` and splits at its first `:`, scheme and host are lowercased, and a
missing scheme or empty host yields `none` (a thrown `TypeError`).
Bracketed IPv6 hosts and port numbers are outside the modelled shapes. -/
def parseUrlModel (s : String) : Option ParsedUrl :=
  let l := s.data
  let scheme := l.takeWhile (fun c => !(c == ':'))
  match l.dropWhile (fun c => !(c == ':')) with
  | ':' :: '/' :: '/' :: rest =>
    if scheme.isEmpty || !(scheme.all Char.isAlpha) then none
    else
      let authority := rest.takeWhile (fun c => !(c == '/' || c == '?' || c == '#'))
      let atParts := splitOnChar '@' authority
      let userinfo :=
        match atParts.reverse with
        | [] => []
        | _ :: revInit => joinWith '@' revInit.reverse
      let hostport :=
        match atParts.reverse with
        | [] => []
        | lastPart :: _ => lastPart
      let username := userinfo.takeWhile (fun c => !(c == ':'))
      let password :=
        match userinfo.dropWhile (fun c => !(c == ':')) with
        | ':' :: p => p
        | _ => []
      let host := hostport.takeWhile (fun c => !(c == ':'))
      if host.isEmpty then none
      else
        some ⟨⟨scheme.map Char.toLower⟩ ++ ":", jsToLower ⟨host⟩, ⟨username⟩, ⟨password⟩⟩
  | _ => none

/-- `/^172\.(1[6-9]|2[0-9]|3[0-1])\./` — Class B private (172.16.0.0/12). -/
def pat172 (l : List Char) : Bool :=
  match l with
  | '1' :: '7' :: '2' :: '.' :: d1 :: d2 :: '.' :: _ =>
    (d1 == '1' && charBetween '6' '9' d2) ||
    (d1 == '2' && charBetween '0' '9' d2) ||
    (d1 == '3' && (d2 == '0' || d2 == '1'))
  | _ => false

/-- `/^100\.(6[4-9]|[7-9][0-9]|1[0-1][0-9]|12[0-7])\./` — carrier-grade
NAT (100.64.0.0/10). -/
def pat100 (l : List Char) : Bool :=
  match l with
  | '1' :: '0' :: '0' :: '.' :: rest =>
    (match rest with
     | d1 :: d2 :: '.' :: _ =>
       (d1 == '6' && charBetween '4' '9' d2) ||
       (charBetween '7' '9' d1 && charBetween '0' '9' d2)
     | _ => false) ||
    (match rest with
     | '1' :: d2 :: d3 :: '.' :: _ =>
       ((d2 == '0' || d2 == '1') && charBetween '0' '9' d3) ||
       (d2 == '2' && charBetween '0' '7' d3)
     | _ => false)
  | _ => false

/-- `PRIVATE_IP_PATTERNS`, in source order, with the comment each regex
carries in the source.  Note the last three: the source comments claim
multicast 224.0.0.0/4 and reserved 240.0.0.0/4, but `/^224\./` and
`/^240\./` only match a literal first octet. -/
def PRIVATE_IP_PATTERNS : List (String → Bool) :=
  [ fun s => strStarts s "127.",            -- Loopback (127.0.0.0/8)
    fun s => strStarts s "10.",             -- Class A private (10.0.0.0/8)
    fun s => pat172 s.data,                 -- Class B private (172.16.0.0/12)
    fun s => strStarts s "192.168.",        -- Class C private (192.168.0.0/16)
    fun s => strStarts s "169.254.",        -- Link-local (169.254.0.0/16)
    fun s => strStarts s "0.",              -- Current network (0.0.0.0/8)
    fun s => pat100 s.data,                 -- Carrier-grade NAT (100.64.0.0/10)
    fun s => strStarts s "192.0.0.",        -- IETF Protocol Assignments (192.0.0.0/24)
    fun s => strStarts s "192.0.2.",        -- TEST-NET-1 (192.0.2.0/24)
    fun s => strStarts s "198.51.100.",     -- TEST-NET-2 (198.51.100.0/24)
    fun s => strStarts s "203.0.113.",      -- TEST-NET-3 (203.0.113.0/24)
    fun s => strStarts s "224.",            -- Multicast (224.0.0.0/4)
    fun s => strStarts s "240.",            -- Reserved (240.0.0.0/4)
    fun s => s == "255.255.255.255" ]      -- Broadcast

/-- `BLOCKED_HOSTNAMES`. -/
def BLOCKED_HOSTNAMES : List String :=
  ["localhost", "localhost.localdomain", "0.0.0.0", "[::]", "[::1]",
   "metadata.google.internal", "metadata.google", "169.254.169.254"]

/-- `ALLOWED_PROTOCOLS`. -/
def ALLOWED_PROTOCOLS : List String := ["http:", "https:"]

/-- `isPrivateIP`. -/
def isPrivateIP (ip : String) : Bool :=
  PRIVATE_IP_PATTERNS.any (fun pattern => pattern ip)

/-- `isBlockedHostname`. -/
def isBlockedHostname (hostname : String) : Bool :=
  let normalized := jsToLower hostname
  BLOCKED_HOSTNAMES.any (fun blocked =>
    normalized == blocked || strEnds normalized ("." ++ blocked))

/-- `/^\d{1,3}\.\d{1,3}\.\d{1,3}\.\d{1,3}$/` — four dot-separated runs
of one to three digits. -/
def isIPv4Quad (hostname : String) : Bool :=
  let parts := splitOnChar '.' hostname.data
  parts.length == 4 &&
    parts.all (fun p =>
      decide (1 ≤ p.length) && decide (p.length ≤ 3) && p.all Char.isDigit)

/-- `isIPAddress`. -/
def isIPAddress (hostname : String) : Bool :=
  isIPv4Quad hostname || strStarts hostname "[" || hostname.data.contains ':'

/-- `hostname.replace(/^\[|\]$/g, "")`: strip one leading `[` and one
trailing `]`. -/
def stripBrackets (s : String) : String :=
  let afterOpen := if strStarts s "[" then (⟨s.data.drop 1⟩ : String) else s
  if strEnds afterOpen "]" then ⟨afterOpen.data.dropLast⟩ else afterOpen

/-- `validateUrl(urlString)`, parameterised by the URL parser (the
external `new URL`, with `none` standing for a thrown parse error). -/
def validateUrlWith (parse : String → Option ParsedUrl) (urlString : String) : Verdict :=
  if urlString == "" then .rejected "URL is required" "MISSING_URL"
  else
    let trimmed := jsTrim urlString
    match parse trimmed with
    | none => .rejected ("Invalid URL format: " ++ trimmed) "INVALID_FORMAT"
    | some parsed =>
      if !(ALLOWED_PROTOCOLS.contains parsed.protocol) then
        .rejected ("Invalid protocol: " ++ parsed.protocol ++
                   ". Only HTTP and HTTPS are allowed.") "INVALID_PROTOCOL"
      else
        let hostname := jsToLower parsed.hostname
        if isBlockedHostname hostname then
          .rejected ("Blocked hostname: " ++ hostname) "BLOCKED_HOSTNAME"
        else if isIPAddress hostname && isPrivateIP (stripBrackets hostname) then
          .rejected ("Private IP addresses are not allowed: " ++ stripBrackets hostname)
                    "PRIVATE_IP"
        else if !(parsed.username == "") || !(parsed.password == "") then
          .rejected "URLs with credentials are not allowed" "CREDENTIALS_NOT_ALLOWED"
        else .accepted parsed

/-- `validateUrl` with the concrete parser model. -/
def validateUrl (urlString : String) : Verdict :=
  validateUrlWith parseUrlModel urlString

/-- `isValidUrl(urlString)` — the non-throwing variant. -/
def isValidUrl (urlString : String) : Bool :=
  match validateUrl urlString with
  | .accepted _ => true
  | .rejected _ _ => false

/-- `validateUrls(urls)`: partition into valid URLs and invalid URLs
paired with the error message, preserving input order in each part. -/
def validateUrls : List String → List String × List (String × String)
  | [] => ([], [])
  | u :: rest =>
    let r := validateUrls rest
    match validateUrl u with
    | .accepted _ => (u :: r.1, r.2)
    | .rejected m _ => (r.1, (u, m) :: r.2)

/-- An IPv4 quad lies in the multicast range 224.0.0.0/4 claimed by the
source comment (first octet 224–239). -/
def inMulticast4 (a b c d : Nat) : Bool :=
  decide (224 ≤ a) && decide (a ≤ 239) &&
  decide (b ≤ 255) && decide (c ≤ 255) && decide (d ≤ 255)

/-! ## Feed parser and cache (`src/backend/src/services/rssFetcher.js`)

`parser.parseURL` is the external `rss-parser` network fetch plus XML
parse; it is modelled by an oracle `network : String → Except String
RawFeed` returning the fields the service reads (or the error message
of a thrown failure).  The `node-cache` instance is modelled as an
association list of entries with absolute expiry timestamps (in
milliseconds); an entry is live strictly before its expiry.  The clock
`now` and the count of network fetches performed are explicit. -/

/-- The fields of an `rss-parser` feed item consulted by the service.
The attribute indirections `mediaContent.$.url`, `mediaThumbnail.$.url`
and `enclosure.url` are pre-projected to optional URL strings. -/
structure RawItem where
  title : Option String
  link : Option String
  pubDate : Option String
  isoDate : Option String
  creator : Option String
  author : Option String
  contentEncoded : Option String
  content : Option String
  contentSnippet : Option String
  categories : Option (List String)
  guid : Option String
  id : Option String
  mediaContentUrl : Option String
  mediaThumbnailUrl : Option String
  enclosureUrl : Option String
deriving DecidableEq, Repr

/-- The fields of an `rss-parser` feed consulted by the service. -/
structure RawFeed where
  title : Option String
  description : Option String
  link : Option String
  language : Option String
  lastBuildDate : Option String
  items : Option (List RawItem)
deriving DecidableEq, Repr

/-- `extractThumbnail(item)` — fixed preference order
media:content → media:thumbnail → enclosure. -/
def extractThumbnail (item : RawItem) : Option String :=
  match item.mediaContentUrl with
  | some u => some u
  | none =>
    match item.mediaThumbnailUrl with
    | some u => some u
    | none => item.enclosureUrl

/-- A normalized feed item as stored in the cache. -/
structure CachedFeedItem where
  title : String
  link : String
  pubDate : Option String
  creator : String
  content : String
  contentSnippet : String
  categories : List String
  guid : Option String
  thumbnail : Option String
deriving DecidableEq, Repr

/-- A normalized feed as stored in the cache (`parsedFeed` in the
source); `fetchedAt` models the `_fetchedAt` timestamp. -/
structure ParsedFeed where
  title : String
  description : String
  link : String
  language : String
  lastBuildDate : Option String
  items : List CachedFeedItem
  fetchedAt : Nat
deriving DecidableEq, Repr

/-- Per-item normalization (lines 68–78 of the source). -/
def normalizeItem (item : RawItem) : CachedFeedItem where
  title := jsOr item.title "Untitled"
  link := jsOr item.link ""
  pubDate := firstTruthy [item.pubDate, item.isoDate]
  creator := jsOrStr [item.creator, item.author]
  content := jsOrStr [item.contentEncoded, item.content, item.contentSnippet]
  contentSnippet := jsOr item.contentSnippet ""
  categories := item.categories.getD []
  guid := jsOrChain [item.guid, item.id] item.link
  thumbnail := extractThumbnail item

/-- Feed-level normalization (`parsedFeed`, lines 62–80). -/
def normalizeFeed (feedUrl : String) (feed : RawFeed) (now : Nat) : ParsedFeed where
  title := jsOr feed.title "Untitled Feed"
  description := jsOr feed.description ""
  link := jsOr feed.link feedUrl
  language := jsOr feed.language "en"
  lastBuildDate := firstTruthy [feed.lastBuildDate]
  items := (feed.items.getD []).map normalizeItem
  fetchedAt := now

/-- One `node-cache` entry: the stored feed and its absolute expiry
timestamp in milliseconds. -/
structure CacheEntry where
  value : ParsedFeed
  expiresAt : Nat
deriving DecidableEq, Repr

/-- The `feedCache` store. -/
structure FeedCache where
  entries : List (String × CacheEntry)
deriving DecidableEq, Repr

/-- `CACHE_TTL` default: one hour, in seconds. -/
def CACHE_TTL : Nat := 3600

/-- A cache read: the stored value when the key is present and live
(an expired entry behaves as a miss). -/
def cacheGet (st : FeedCache) (now : Nat) (key : String) : Option ParsedFeed :=
  match st.entries.lookup key with
  | some e => if now < e.expiresAt then some e.value else none
  | none => none

/-- `feedCache.getTtl(key)`: the absolute expiry timestamp of a live
entry, `none` otherwise. -/
def cacheGetTtl (st : FeedCache) (now : Nat) (key : String) : Option Nat :=
  match st.entries.lookup key with
  | some e => if now < e.expiresAt then some e.expiresAt else none
  | none => none

/-- `feedCache.set(key, v)` with the default TTL. -/
def cacheSet (st : FeedCache) (now : Nat) (key : String) (v : ParsedFeed) : FeedCache :=
  ⟨(key, ⟨v, now + CACHE_TTL * 1000⟩) :: st.entries.filter (fun p => !(p.1 == key))⟩

/-- The successful return value of `fetchAndParseRss`: the feed spread
together with the `_cache` metadata object. -/
structure FetchSuccess where
  feed : ParsedFeed
  cacheHit : Bool
  cacheKey : String
  cacheTtl : Option Nat
deriving DecidableEq, Repr

/-- `fetchAndParseRss(feedUrl, { bypassCache })`.  Returns the outcome
(the thrown error message on failure), the cache state after the call,
and the number of network fetches performed (0 or 1). -/
def fetchAndParseRss (network : String → Except String RawFeed) (now : Nat)
    (st : FeedCache) (feedUrl : String) (bypassCache : Bool) :
    Except String FetchSuccess × FeedCache × Nat :=
  let cacheKey := "feed:" ++ feedUrl
  match (if bypassCache then none else cacheGet st now cacheKey) with
  | some cached => (.ok ⟨cached, true, cacheKey, cacheGetTtl st now cacheKey⟩, st, 0)
  | none =>
    match network feedUrl with
    | .error e => (.error ("Failed to fetch RSS feed: " ++ e), st, 1)
    | .ok raw =>
      let parsedFeed := normalizeFeed feedUrl raw now
      let st' := cacheSet st now cacheKey parsedFeed
      (.ok ⟨parsedFeed, false, cacheKey, cacheGetTtl st' now cacheKey⟩, st', 1)

/-- `isFeedCached(feedUrl)`. -/
def isFeedCached (st : FeedCache) (now : Nat) (feedUrl : String) : Bool :=
  (cacheGet st now ("feed:" ++ feedUrl)).isSome

/-! ## The resolve route (`src/backend/src/routes/rss.js`)

The route composes four collaborators inside a single try/catch; the
collaborators are modelled as oracles carrying abstract payloads
(`Except` errors stand for thrown exceptions), and the single catch
block maps any of their failures to the 500 response. -/

/-- Outcomes of the four collaborators of `POST /fetch`, for a fixed
request URL. -/
structure RssRouteEnv where
  /-- `discoverRssFeed(url)`: a thrown error, or an optional feed URL. -/
  discover : Except String (Option String)
  /-- `fetchAndParseRss(rssUrl)` on the discovered URL: a thrown error
  or the parsed feed (payload abstracted). -/
  fetchFeed : String → Except String String
  /-- `scrapeWebsite(url)`: a thrown error or the scraped data
  (payload abstracted). -/
  scrape : Except String String
  /-- `generateRssFeed(url, scrapedData)`: pure; returns the JSON
  projection and the XML wire form. -/
  generate : String → String × String

/-- The HTTP responses the route can produce. -/
inductive RouteResponse where
  | badRequest (error : String)
  | discoveredOk (feedUrl feed : String)
  | generatedOk (feedJson rssXml : String)
  | serverError (message : String)
deriving DecidableEq, Repr

/-- The `POST /fetch` handler. -/
def rssFetchRoute (env : RssRouteEnv) (url : Option String) : RouteResponse :=
  match url with
  | none => .badRequest "URL is required"
  | some u =>
    if (parseUrlModel u).isNone then .badRequest "Invalid URL format"
    else
      match env.discover with
      | .error e => .serverError e
      | .ok (some rssUrl) =>
        match env.fetchFeed rssUrl with
        | .error e => .serverError e
        | .ok feed => .discoveredOk rssUrl feed
      | .ok none =>
        match env.scrape with
        | .error e => .serverError e
        | .ok scrapedData =>
          let generated := env.generate scrapedData
          .generatedOk generated.1 generated.2

/-- Concrete route environment: discovery finds a feed URL whose fetch
then fails, while scraping the page would succeed. -/
def c2Env : RssRouteEnv where
  discover := .ok (some "https://site.example/feed")
  fetchFeed := fun _ => .error "Failed to fetch RSS feed: boom"
  scrape := .ok "scraped-page"
  generate := fun s => (s, s)

/-! ## Intel RSS parser (`src/backend/src/services/feedprocess.js`, `parseRSS`)

`xml2js.parseStringPromise` is external; its outcome is modelled as
`Except Unit ParsedXmlDoc` (`error` = the parse threw, caught by the
surrounding catch which returns the empty list).  Entry fields are
string-valued in the modelled documents; the attribute indirections
`el.title?._` and `el.link?.href` are carried as separate optional
fields beside the plain string values. -/

/-- One `<item>`/`<entry>` element as read by `parseRSS`. -/
structure XmlEntry where
  titleAttr : Option String
  titlePlain : Option String
  linkHref : Option String
  linkPlain : Option String
  description : Option String
  summary : Option String
  content : Option String
  pubDate : Option String
  published : Option String
  updated : Option String
deriving DecidableEq, Repr

/-- The value of `parsed?.rss?.channel?.item` (or `parsed?.feed?.entry`)
under `explicitArray: false`: absent, a single element, or an array. -/
inductive XmlEntries where
  | absent
  | single (e : XmlEntry)
  | array (es : List XmlEntry)
deriving DecidableEq, Repr

/-- The parts of the `xml2js` result consulted by `parseRSS`. -/
structure ParsedXmlDoc where
  rssChannelItem : XmlEntries
  feedEntry : XmlEntries
deriving DecidableEq, Repr

/-- `feedItems` and `list`: first present element collection, wrapped
in an array when it is a single element (a present empty array is
truthy in JavaScript and used as is). -/
def parseRSSEntries (doc : ParsedXmlDoc) : List XmlEntry :=
  match doc.rssChannelItem with
  | .single e => [e]
  | .array es => es
  | .absent =>
    match doc.feedEntry with
    | .single e => [e]
    | .array es => es
    | .absent => []

/-- `hashId(...parts)` — an md5 hex digest of the concatenated parts.
Modelled by the concatenated preimage itself: no claim inspects digest
values, only that the id is derived from link and published date. -/
def hashId (parts : List String) : String :=
  String.join parts

/-- One item produced by the intel pipeline. -/
structure IntelItem where
  id : String
  title : String
  url : String
  content : String
  published : String
  source : String
  tier : String
deriving DecidableEq, Repr

/-- The loop body of `parseRSS` (lines 68–87): skip entries lacking a
truthy title or link, truncate title to 200 and content to 4000. -/
def parseRSSStep (source tier : String) (items : List IntelItem) (el : XmlEntry) :
    List IntelItem :=
  let title := jsOrStr [el.titleAttr, el.titlePlain]
  let link := jsOrStr [el.linkHref, el.linkPlain]
  let content := jsOrStr [el.description, el.summary, el.content]
  let published := jsOrStr [el.pubDate, el.published, el.updated]
  if title != "" && link != "" then
    items ++ [⟨hashId [link, published], jsSlice title 200, link,
               jsSlice content 4000, published, source, tier⟩]
  else items

/-- `parseRSS(xml, source, tier)`: the empty list when the XML parse
threw, otherwise at most the first 25 entries, filtered and truncated.
The function is total — the catch block swallows every failure. -/
def parseRSS (doc : Except Unit ParsedXmlDoc) (source tier : String) : List IntelItem :=
  match doc with
  | .error _ => []
  | .ok d => ((parseRSSEntries d).take 25).foldl (parseRSSStep source tier) []

/-! ## Feed discovery in HTML and the smart fetch cascade
(`src/backend/src/services/feedprocess.js`)

A fetched HTML page is represented by its `<link>` tags in document
order; `resolve` models `new URL(href, base).href`. -/

/-- A `<link>` tag: `rel` and `type` attributes and optional `href`. -/
structure LinkTag where
  rel : String
  typeAttr : String
  href : Option String
deriving DecidableEq, Repr

/-- The tag is matched by
`link[type="application/rss+xml"], link[type="application/atom+xml"]`. -/
def isFeedType (t : LinkTag) : Bool :=
  t.typeAttr == "application/rss+xml" || t.typeAttr == "application/atom+xml"

/-- Loop body of `discoverFeedUrls`: skip a missing or empty href,
resolve root-relative hrefs, keep SSRF-valid URLs, dedup in insertion
order (the `Set`). -/
def discoverStep (resolve : String → String) (feeds : List String) (t : LinkTag) :
    List String :=
  match t.href with
  | none => feeds
  | some href =>
    if href == "" then feeds
    else
      let resolved := if strStarts href "/" then resolve href else href
      if isValidUrl resolved && !(feeds.contains resolved) then feeds ++ [resolved]
      else feeds

/-- `discoverFeedUrls(html, baseUrl)`. -/
def discoverFeedUrls (resolve : String → String) (links : List LinkTag) : List String :=
  (links.filter isFeedType).foldl (discoverStep resolve) []

/-- `for (const feedUrl of feeds) { ... if (items.length) return items }`:
first non-empty direct parse of the candidate feed URLs. -/
def tryFeedList (direct : String → List IntelItem) : List String → List IntelItem
  | [] => []
  | u :: rest =>
    let items := direct u
    if items.length > 0 then items else tryFeedList direct rest

/-- One HTML-discovery tier of `smartFetch` (tiers 2 and 3): fetch the
HTML (`Except` = the fetch threw, caught and treated as an empty
yield), discover candidate feeds, attempt a direct parse of each. -/
def discoveryTier (direct : String → List IntelItem) (resolve : String → String)
    (html : Except String (List LinkTag)) : List IntelItem :=
  match html with
  | .error _ => []
  | .ok links => tryFeedList direct (discoverFeedUrls resolve links)

/-- Oracles of `smartFetch` for one input URL: `direct` is
`fetchDirect` (total — it catches its own failures and returns the
empty list), `htmlDirect` and `htmlBee` are the two HTML fetches
(which can throw, including a missing ScrapingBee key for `htmlBee`),
`beeFeed` is `fetchViaScrapingBee` (total). -/
structure SmartEnv where
  direct : String → List IntelItem
  htmlDirect : Except String (List LinkTag)
  htmlBee : Except String (List LinkTag)
  beeFeed : List IntelItem
  resolve : String → String

/-- `smartFetch(url)`: SSRF validation (whose rejection propagates to
the caller), then the four tiers in order, each tried only when every
earlier tier yielded zero items. -/
def smartFetch (env : SmartEnv) (url : String) : Except String (List IntelItem) :=
  match validateUrl url with
  | .rejected _ code => .error code
  | .accepted _ =>
    let direct := env.direct url
    if direct.length > 0 then .ok direct
    else
      let tier2 := discoveryTier env.direct env.resolve env.htmlDirect
      if tier2.length > 0 then .ok tier2
      else
        let tier3 := discoveryTier env.direct env.resolve env.htmlBee
        if tier3.length > 0 then .ok tier3
        else .ok env.beeFeed

/-! ## Feed discovery service (`discoverRssFeed`)

The page fetch is an oracle returning the `<link>` tags of the HTML (or
a thrown fetch error); `resolve` models `new URL(x, baseUrl.origin)`;
`probe` models `checkFeedExists` on a conventional path URL.  The
result carries the list of conventional-path URLs actually probed, in
order, up to and including the accepted one. -/

/-- `COMMON_FEED_PATHS`. -/
def COMMON_FEED_PATHS : List String :=
  ["/feed", "/feed/", "/rss", "/rss/", "/rss.xml", "/atom.xml",
   "/feed.xml", "/index.xml", "/feeds/posts/default", "/?feed=rss2"]

/-- The conventional-path loop: probe each path URL in order, stop at
the first acceptance; also reports every URL probed. -/
def probeLoop (resolve : String → String) (probe : String → Bool) :
    List String → Option String × List String
  | [] => (none, [])
  | path :: rest =>
    let feedUrl := resolve path
    if probe feedUrl then (some feedUrl, [feedUrl])
    else
      let r := probeLoop resolve probe rest
      (r.1, feedUrl :: r.2)

/-- The href of a candidate `<link>` tag: the `if (href)` truthiness
guard (a missing or empty attribute falls through), then resolution and
re-validation (`try { validateUrl(feedUrl); return feedUrl; } catch { }`). -/
def candidateHref (resolve : String → String) (t : Option LinkTag) : Option String :=
  match t with
  | none => none
  | some tag =>
    match tag.href with
    | none => none
    | some href =>
      if href == "" then none
      else
        let feedUrl := resolve href
        if isValidUrl feedUrl then some feedUrl else none

/-- `discoverRssFeed(url)`: SSRF validation of the input (a rejection
is thrown to the caller), then the first feed-typed `<link>` (any
`rel`), then the first `rel="alternate"` feed-typed `<link>`, then the
conventional-path probes; a page fetch failure or exhaustion yields
`none`, never an error.  The second component lists the probed URLs. -/
def discoverRssFeed (resolve : String → String) (probe : String → Bool)
    (pageHtml : Except String (List LinkTag)) (url : String) :
    Except String (Option String) × List String :=
  match validateUrl url with
  | .rejected _ code => (.error code, [])
  | .accepted _ =>
    match pageHtml with
    | .error _ => (.ok none, [])
    | .ok links =>
      match candidateHref resolve (links.filter isFeedType).head? with
      | some feedUrl => (.ok (some feedUrl), [])
      | none =>
        match candidateHref resolve
            (links.filter (fun t => t.rel == "alternate" && isFeedType t)).head? with
        | some feedUrl => (.ok (some feedUrl), [])
        | none =>
          let r := probeLoop resolve probe COMMON_FEED_PATHS
          (.ok r.1, r.2)

/-! ## Content scraper (`src/backend/src/utils/scraper.js`,
`extractContentItems`)

The cheerio DOM is modelled by an oracle `page` mapping each CSS
selector to the `extractItemData` outcomes of its matched elements in
document order (`none` = the element yielded `null`), and by the list
of anchors scanned in the heading fallback.  The cascade, link dedup
and 20-item cap are translated from the source. -/

/-- One scraped content item. -/
structure ScrapedItem where
  title : String
  link : String
  content : String
  pubDate : Option String
  thumbnail : Option String
deriving DecidableEq, Repr

/-- `articleSelectors`, ordered by specificity. -/
def articleSelectors : List String :=
  ["article", "[role=\"article\"]", ".post", ".entry", ".article",
   ".blog-post", ".news-item", ".card", ".item", "main section",
   ".content-item"]

/-- The `$(selector).each` body: keep an extracted item when it has a
truthy link not seen before. -/
def pushItems : List (Option ScrapedItem) → List ScrapedItem → List String →
    List ScrapedItem × List String
  | [], acc, seen => (acc, seen)
  | none :: rest, acc, seen => pushItems rest acc seen
  | some item :: rest, acc, seen =>
    if item.link != "" && !(seen.contains item.link) then
      pushItems rest (acc ++ [item]) (seen ++ [item.link])
    else pushItems rest acc seen

/-- The selector cascade: try each selector in order, stopping at the
first that leaves a non-empty item list. -/
def selectorLoop (page : String → List (Option ScrapedItem)) :
    List String → List ScrapedItem → List String → List ScrapedItem × List String
  | [], acc, seen => (acc, seen)
  | sel :: rest, acc, seen =>
    let r := pushItems (page sel) acc seen
    if r.1.length > 0 then r else selectorLoop page rest r.1 r.2

/-- One anchor examined by the heading fallback: whether a heading is
contained in or contains the anchor, the `href` attribute, the trimmed
text of the first contained heading (empty when there is none) and the
trimmed anchor text. -/
structure AnchorInfo where
  hasHeading : Bool
  href : Option String
  headingText : String
  anchorText : String
deriving DecidableEq, Repr

/-- The `$('a').each` fallback body (lines 106–129): note that a link
is recorded as seen before the title length check. -/
def fallbackLoop (resolve : String → String) :
    List AnchorInfo → List ScrapedItem → List String → List ScrapedItem × List String
  | [], acc, seen => (acc, seen)
  | a :: rest, acc, seen =>
    if a.hasHeading then
      match a.href with
      | some href =>
        if href != "" && !(strStarts href "#") && !(strStarts href "javascript:") then
          let link := resolve href
          if !(seen.contains link) then
            let title := if a.headingText != "" then a.headingText else a.anchorText
            if title != "" && title.length > 5 && title.length < 200 then
              fallbackLoop resolve rest (acc ++ [⟨title, link, "", none, none⟩])
                (seen ++ [link])
            else fallbackLoop resolve rest acc (seen ++ [link])
          else fallbackLoop resolve rest acc seen
        else fallbackLoop resolve rest acc seen
      | none => fallbackLoop resolve rest acc seen
    else fallbackLoop resolve rest acc seen

/-- `extractContentItems($, baseUrl)`. -/
def extractContentItems (page : String → List (Option ScrapedItem))
    (anchors : List AnchorInfo) (resolve : String → String) : List ScrapedItem :=
  let r := selectorLoop page articleSelectors [] []
  let items := if r.1.length == 0 then (fallbackLoop resolve anchors r.1 r.2).1 else r.1
  items.take 20

/-! ## Batch intel forwarding (`src/backend/src/routes/intel.js`)

The downstream webhook is an oracle from URL to outcome (`Except` =
the axios call rejected with an error detail). -/

/-- One entry of the batch result array. -/
structure IntelOutcome where
  url : String
  success : Bool
  data : Option String
  error : Option String
deriving DecidableEq, Repr

/-- `forwardToWebhook(urls, endpoint)`: one outcome per URL, in order;
each rejection is caught and recorded per item. -/
def forwardToWebhook (post : String → Except String String) (urls : List String) :
    List IntelOutcome :=
  urls.map fun url =>
    match post url with
    | .ok d => ⟨url, true, some d, none⟩
    | .error e => ⟨url, false, none, some e⟩

/-- `processIntelUrls`: validate all URLs, list the invalid ones first
with their validation errors, then forward the valid ones. -/
def processIntelUrls (post : String → Except String String) (urls : List String) :
    List IntelOutcome :=
  let v := validateUrls urls
  let invalidResults :=
    v.2.map (fun p => (⟨p.1, false, none, some ("URL validation failed: " ++ p.2)⟩ : IntelOutcome))
  let validResults := if v.1.length > 0 then forwardToWebhook post v.1 else []
  invalidResults ++ validResults

/-! ## Concrete fixtures for closed instances -/

/-- An empty feed cache. -/
def emptyCache : FeedCache := ⟨[]⟩

/-- A minimal raw feed returned by a succeeding network fetch. -/
def sampleRawFeed : RawFeed :=
  ⟨some "T", some "D", some "https://site.example", some "en", none, some []⟩

/-- A network oracle that always succeeds with `sampleRawFeed`. -/
def okNetwork : String → Except String RawFeed := fun _ => .ok sampleRawFeed

/-- A network oracle that always fails. -/
def failNetwork : String → Except String RawFeed := fun _ => .error "socket hang up"

/-- The single article item of the duplicate-link page. -/
def c5Item : ScrapedItem := ⟨"Post", "https://site.example/a", "", none, none⟩

/-- A page whose `article` selector matches 21 extractable elements,
all linking to the same URL. -/
def c5Page : String → List (Option ScrapedItem) :=
  fun sel => if sel == "article" then List.replicate 21 (some c5Item) else []

/-- A page whose `article` selector matches 21 extractable elements
with pairwise distinct links. -/
def c5wPage : String → List (Option ScrapedItem) :=
  fun sel =>
    if sel == "article" then
      (List.range 21).map (fun i =>
        some ⟨"Post", "https://site.example/p" ++ toString i, "", none, none⟩)
    else []

/-- Resolution against the origin `https://site.example`. -/
def c6resolve : String → String := fun path => "https://site.example" ++ path

/-- A probe oracle that never accepts. -/
def c6probeNo : String → Bool := fun _ => false

/-- A page whose first feed-typed link is `rel="alternate"` and whose
second is not. -/
def c6links : List LinkTag :=
  [⟨"alternate", "application/rss+xml", some "/a"⟩,
   ⟨"", "application/rss+xml", some "/b"⟩]

/-- A page with a single plain feed-typed link. -/
def c6wLinks : List LinkTag := [⟨"", "application/rss+xml", some "/feed"⟩]

/-- A sample intel item. -/
def c7item : IntelItem :=
  ⟨"id1", "T", "https://site.example/x", "", "", "https://site.example", "direct"⟩

/-- A direct-fetch oracle yielding one item on the input URL itself. -/
def c7direct : String → List IntelItem :=
  fun u => if u == "https://site.example" then [c7item] else []

/-- A webhook oracle that always succeeds. -/
def c8post : String → Except String String := fun _ => .ok "forwarded"

/-- An entry with a title and a link. -/
def c9entryOk : XmlEntry :=
  ⟨none, some "Hello", none, some "https://site.example/a", some "body",
   none, none, some "Mon, 01 Jan 2024", none, none⟩

/-- An entry lacking a link (skipped by the parser). -/
def c9entryNoLink : XmlEntry :=
  ⟨none, some "NoLink", none, none, none, none, none, none, none, none⟩

/-- A parsed document with one complete and one incomplete entry. -/
def c9doc : ParsedXmlDoc := ⟨.array [c9entryOk, c9entryNoLink], .absent⟩

/-! ## Helper lemmas -/

theorem dropWhile_self (p : Char → Bool) (l : List Char) :
    (l.dropWhile p).dropWhile p = l.dropWhile p := by
  induction l with
  | nil => rfl
  | cons a l ih =>
    by_cases hp : p a = true
    · simp [List.dropWhile, hp, ih]
    · simp [List.dropWhile, hp]

theorem dropWhile_shape (p : Char → Bool) (l : List Char) :
    l.dropWhile p = [] ∨ ∃ h t, l.dropWhile p = h :: t ∧ p h = false := by
  induction l with
  | nil => exact Or.inl rfl
  | cons a l ih =>
    by_cases hp : p a = true
    · simpa [List.dropWhile, hp] using ih
    · exact Or.inr ⟨a, l, by simp [List.dropWhile, hp], by simpa using hp⟩

theorem dropWhile_append_singleton (p : Char → Bool) (a : Char) (ha : p a = false) :
    ∀ l : List Char, ∃ l', (l ++ [a]).dropWhile p = l' ++ [a] := by
  intro l
  induction l with
  | nil => exact ⟨[], by simp [List.dropWhile, ha]⟩
  | cons x xs ih =>
    by_cases hx : p x = true
    · obtain ⟨l', hl'⟩ := ih
      exact ⟨l', by simp [List.dropWhile, hx, hl']⟩
    · exact ⟨x :: xs, by simp [List.dropWhile, hx]⟩

theorem trimList_idem (l : List Char) : trimList (trimList l) = trimList l := by
  rcases dropWhile_shape isJsWs l with hd | ⟨h, t, hd, hph⟩
  · simp [trimList, dropWhileEnd, hd]
  · obtain ⟨l', hl'⟩ := dropWhile_append_singleton isJsWs h hph t.reverse
    have hm : (l.dropWhile isJsWs).reverse.dropWhile isJsWs = l' ++ [h] := by
      rw [hd]; simpa using hl'
    have htl : trimList l = h :: l'.reverse := by
      simp [trimList, dropWhileEnd, hm]
    rw [htl]
    have step1 : (h :: l'.reverse).dropWhile isJsWs = h :: l'.reverse := by
      simp [List.dropWhile, hph]
    have step2 : (h :: l'.reverse).reverse.dropWhile isJsWs = l' ++ [h] := by
      have : (h :: l'.reverse).reverse = l' ++ [h] := by simp
      rw [this, ← hm, dropWhile_self, hm]
    show trimList (h :: l'.reverse) = h :: l'.reverse
    unfold trimList dropWhileEnd
    rw [step1, step2]
    simp

theorem jsTrim_idem (s : String) : jsTrim (jsTrim s) = jsTrim s :=
  congrArg String.mk (trimList_idem s.data)

theorem jsTrim_empty : jsTrim "" = "" := rfl

/-! ## Claim C1 -/

/-- C1: the claim states that every IPv4 literal in the multicast range
224.0.0.0/4 (and reserved 240.0.0.0/4) is rejected, matching the
comments carried by `PRIVATE_IP_PATTERNS` in the source; but the
regexes only match a literal first octet of 224 or 240, so
`http://225.0.0.1` — inside 224.0.0.0/4 — passes every pattern and is
accepted by `validateUrl`. -/
theorem validateUrl_accepts_multicast_225 :
    validateUrl "http://225.0.0.1" = .accepted ⟨"http:", "225.0.0.1", "", ""⟩ ∧
    inMulticast4 225 0 0 1 = true ∧
    isPrivateIP "225.0.0.1" = false ∧
    validateUrl "http://241.0.0.1" = .accepted ⟨"http:", "241.0.0.1", "", ""⟩ := by
  decide

/-! ## Claim C10 -/

/-- C10 counterexample: the claim fails on whitespace-only strings.
`validateUrl(" ")` trims and then fails to parse, rejecting with code
INVALID_FORMAT, while `validateUrl("")` (its trimmed form) is rejected
by the truthiness guard with code MISSING_URL — same rejection but a
different reason, so the verdicts differ. -/
theorem validateUrl_space_ne_trimmed :
    validateUrl " " = .rejected "Invalid URL format: " "INVALID_FORMAT" ∧
    validateUrl (jsTrim " ") = .rejected "URL is required" "MISSING_URL" ∧
    validateUrl " " ≠ validateUrl (jsTrim " ") := by
  decide

/-- C10 (amended): for every URL parser and every string whose trimmed
form is non-empty, `validateUrl` yields the same verdict on the string
and on its trimmed form; whitespace padding around an otherwise-safe
URL therefore never changes the outcome.  (Whitespace-only strings are
the counterexample region: they reject either way, but with
INVALID_FORMAT against MISSING_URL.) -/
theorem validateUrl_trim_invariant (parse : String → Option ParsedUrl) (s : String)
    (h : jsTrim s ≠ "") :
    validateUrlWith parse s = validateUrlWith parse (jsTrim s) := by
  have hs : ¬(s = "") := by
    intro he
    exact h (by rw [he, jsTrim_empty])
  simp only [validateUrlWith, beq_iff_eq, if_neg hs, if_neg h, jsTrim_idem]

/-- C10 witness: a padded safe URL validates identically to its trimmed
form, and is accepted. -/
theorem validateUrl_trim_invariant_witness :
    jsTrim " http://example.com " ≠ "" ∧
    validateUrl " http://example.com " = validateUrl (jsTrim " http://example.com ") ∧
    validateUrl " http://example.com " = .accepted ⟨"http:", "example.com", "", ""⟩ :=
  ⟨by decide, validateUrl_trim_invariant parseUrlModel " http://example.com " (by decide),
   by decide⟩

/-! ## Claim C2 -/

/-- C2 counterexample: discovery finds a feed URL, fetching it fails,
and a working scraper is available — yet the route responds with the
500 handler carrying the fetch error, not with a `generated` (scraped)
or `discovered` result.  The fetch failure is surfaced to the caller,
refuting the claimed fall-through to scraping. -/
theorem rssFetchRoute_feed_failure_is_500 :
    rssFetchRoute c2Env (some "https://site.example") =
      .serverError "Failed to fetch RSS feed: boom" := by
  decide

/-- C2 (amended): in `POST /fetch`, when discovery returns a feed URL
and `fetchAndParseRss` on it throws, the route does not fall back to
scraping the original URL: the error propagates to the surrounding
catch block and the caller receives the 500 response carrying the
fetch error message. -/
theorem rssFetchRoute_fetch_error_surfaces (env : RssRouteEnv) (u rssUrl e : String)
    (hparse : (parseUrlModel u).isNone = false)
    (hdisc : env.discover = .ok (some rssUrl))
    (hfetch : env.fetchFeed rssUrl = .error e) :
    rssFetchRoute env (some u) = .serverError e := by
  simp [rssFetchRoute, hparse, hdisc, hfetch]

/-- C2 witness: the amended behaviour at a concrete environment. -/
theorem rssFetchRoute_fetch_error_surfaces_witness :
    rssFetchRoute c2Env (some "https://other.example") =
      .serverError "Failed to fetch RSS feed: boom" :=
  rssFetchRoute_fetch_error_surfaces c2Env "https://other.example"
    "https://site.example/feed" "Failed to fetch RSS feed: boom"
    (by decide) rfl rfl

/-! ## Claims C3 and C4 -/

theorem lookup_cacheSet_self (st : FeedCache) (now : Nat) (key : String) (v : ParsedFeed) :
    (cacheSet st now key v).entries.lookup key = some ⟨v, now + CACHE_TTL * 1000⟩ := by
  simp [cacheSet, List.lookup]

theorem cacheGet_cacheSet_self (st : FeedCache) (now t : Nat) (key : String) (v : ParsedFeed) :
    cacheGet (cacheSet st now key v) t key =
      if t < now + CACHE_TTL * 1000 then some v else none := by
  simp [cacheGet, lookup_cacheSet_self]

theorem cacheGetTtl_cacheSet_self (st : FeedCache) (now t : Nat) (key : String) (v : ParsedFeed) :
    cacheGetTtl (cacheSet st now key v) t key =
      if t < now + CACHE_TTL * 1000 then some (now + CACHE_TTL * 1000) else none := by
  simp [cacheGetTtl, lookup_cacheSet_self]

/-- C3: from a state where the feed URL is uncached, a successful
`fetchAndParseRss` followed by a second call within the TTL window
performs exactly one network fetch in total: the first call fetches
once, stores the normalized feed, and reports a cache miss; the second
call fetches zero times, leaves the cache unchanged, and returns the
identical `ParsedFeed` (same title, description, link, language and
items) annotated with hit metadata. -/
theorem fetchAndParseRss_cache_idempotent (network : String → Except String RawFeed)
    (raw : RawFeed) (st0 : FeedCache) (url : String) (t0 t1 : Nat)
    (hmiss : cacheGet st0 t0 ("feed:" ++ url) = none)
    (hnet : network url = .ok raw)
    (_ht0 : t0 ≤ t1) (ht1 : t1 < t0 + CACHE_TTL * 1000) :
    fetchAndParseRss network t0 st0 url false =
      (.ok ⟨normalizeFeed url raw t0, false, "feed:" ++ url, some (t0 + CACHE_TTL * 1000)⟩,
       cacheSet st0 t0 ("feed:" ++ url) (normalizeFeed url raw t0), 1) ∧
    fetchAndParseRss network t1
        (cacheSet st0 t0 ("feed:" ++ url) (normalizeFeed url raw t0)) url false =
      (.ok ⟨normalizeFeed url raw t0, true, "feed:" ++ url, some (t0 + CACHE_TTL * 1000)⟩,
       cacheSet st0 t0 ("feed:" ++ url) (normalizeFeed url raw t0), 0) := by
  have hself : t0 < t0 + CACHE_TTL * 1000 := by
    have : 0 < CACHE_TTL * 1000 := by norm_num [CACHE_TTL]
    omega
  constructor
  · simp [fetchAndParseRss, hmiss, hnet, cacheGetTtl_cacheSet_self, hself]
  · simp [fetchAndParseRss, cacheGet_cacheSet_self, cacheGetTtl_cacheSet_self, ht1]

/-- C3 witness: the two calls at a concrete feed URL, clock values 0
and 5, over the empty cache. -/
theorem fetchAndParseRss_cache_idempotent_witness :
    fetchAndParseRss okNetwork 0 emptyCache "https://site.example/feed" false =
      (.ok ⟨normalizeFeed "https://site.example/feed" sampleRawFeed 0, false,
            "feed:https://site.example/feed", some (0 + CACHE_TTL * 1000)⟩,
       cacheSet emptyCache 0 "feed:https://site.example/feed"
         (normalizeFeed "https://site.example/feed" sampleRawFeed 0), 1) ∧
    fetchAndParseRss okNetwork 5
        (cacheSet emptyCache 0 "feed:https://site.example/feed"
          (normalizeFeed "https://site.example/feed" sampleRawFeed 0))
        "https://site.example/feed" false =
      (.ok ⟨normalizeFeed "https://site.example/feed" sampleRawFeed 0, true,
            "feed:https://site.example/feed", some (0 + CACHE_TTL * 1000)⟩,
       cacheSet emptyCache 0 "feed:https://site.example/feed"
         (normalizeFeed "https://site.example/feed" sampleRawFeed 0), 0) :=
  fetchAndParseRss_cache_idempotent okNetwork sampleRawFeed emptyCache
    "https://site.example/feed" 0 5 rfl rfl (by omega) (by norm_num [CACHE_TTL])

/-- C4: when `fetchAndParseRss` fails, the cache state after the call
is exactly the state before it — the failing URL is not inserted and no
entry is touched — so a URL that was not cached before the failing call
is still not cached after it. -/
theorem fetchAndParseRss_failure_cache_unchanged
    (network : String → Except String RawFeed) (now : Nat) (st : FeedCache)
    (url e : String) (bypassCache : Bool) (st' : FeedCache) (n : Nat)
    (hcall : fetchAndParseRss network now st url bypassCache = (.error e, st', n)) :
    st' = st ∧
    (isFeedCached st now url = false → isFeedCached st' now url = false) := by
  simp only [fetchAndParseRss] at hcall
  rcases hget : (if bypassCache then none else cacheGet st now ("feed:" ++ url)) with _ | cached
  · rw [hget] at hcall
    rcases hnet : network url with e' | raw
    · rw [hnet] at hcall
      simp only [Prod.mk.injEq] at hcall
      obtain ⟨-, hst, -⟩ := hcall
      subst hst
      exact ⟨rfl, fun h => h⟩
    · rw [hnet] at hcall
      simp at hcall
  · rw [hget] at hcall
    simp at hcall

/-- C4 witness: a failing fetch over the empty cache leaves it empty. -/
theorem fetchAndParseRss_failure_cache_unchanged_witness :
    fetchAndParseRss failNetwork 0 emptyCache "https://site.example/feed" false =
      (.error "Failed to fetch RSS feed: socket hang up", emptyCache, 1) ∧
    (emptyCache = emptyCache ∧
     (isFeedCached emptyCache 0 "https://site.example/feed" = false →
      isFeedCached emptyCache 0 "https://site.example/feed" = false)) :=
  ⟨rfl, fetchAndParseRss_failure_cache_unchanged failNetwork 0 emptyCache
    "https://site.example/feed" "Failed to fetch RSS feed: socket hang up" false
    emptyCache 1 rfl⟩

/-! ## Claim C5 -/

theorem pushItems_none (rest : List (Option ScrapedItem)) (acc : List ScrapedItem)
    (seen : List String) : pushItems (none :: rest) acc seen = pushItems rest acc seen := rfl

theorem pushItems_some (item : ScrapedItem) (rest : List (Option ScrapedItem))
    (acc : List ScrapedItem) (seen : List String) :
    pushItems (some item :: rest) acc seen =
      if item.link != "" && !(seen.contains item.link) then
        pushItems rest (acc ++ [item]) (seen ++ [item.link])
      else pushItems rest acc seen := rfl

theorem pushItems_acc (elems : List (Option ScrapedItem)) :
    ∀ acc seen, (pushItems elems acc seen).1 = acc ++ (pushItems elems [] seen).1 := by
  induction elems with
  | nil => intro acc seen; simp [pushItems]
  | cons e rest ih =>
    intro acc seen
    cases e with
    | none => rw [pushItems_none, pushItems_none]; exact ih acc seen
    | some item =>
      rw [pushItems_some, pushItems_some]
      by_cases hg : (item.link != "" && !(seen.contains item.link)) = true
      · rw [if_pos hg, if_pos hg, ih (acc ++ [item]), ih ([] ++ [item])]
        simp
      · rw [if_neg hg, if_neg hg]
        exact ih acc seen

theorem pushItems_empty_state (elems : List (Option ScrapedItem)) :
    ∀ seen, (pushItems elems [] seen).1 = [] → pushItems elems [] seen = ([], seen) := by
  induction elems with
  | nil => intro seen _; rfl
  | cons e rest ih =>
    intro seen hnil
    cases e with
    | none =>
      rw [pushItems_none] at hnil ⊢
      exact ih seen hnil
    | some item =>
      rw [pushItems_some] at hnil ⊢
      by_cases hg : (item.link != "" && !(seen.contains item.link)) = true
      · rw [if_pos hg] at hnil
        rw [pushItems_acc] at hnil
        simp at hnil
      · rw [if_neg hg] at hnil ⊢
        exact ih seen hnil

theorem pushItems_links_nodup (elems : List (Option ScrapedItem)) :
    ∀ acc seen, (∀ it ∈ acc, it.link ∈ seen) → (acc.map (fun it => it.link)).Nodup →
      (((pushItems elems acc seen).1).map (fun it => it.link)).Nodup := by
  induction elems with
  | nil => intro acc seen _ hnd; exact hnd
  | cons e rest ih =>
    intro acc seen hsub hnd
    cases e with
    | none =>
      rw [pushItems_none]
      exact ih acc seen hsub hnd
    | some item =>
      rw [pushItems_some]
      by_cases hg : (item.link != "" && !(seen.contains item.link)) = true
      · rw [if_pos hg]
        have hnotin : item.link ∉ seen := by
          have h2 := ((Bool.and_eq_true _ _).mp hg).2
          simp only [Bool.not_eq_true'] at h2
          simpa using h2
        refine ih (acc ++ [item]) (seen ++ [item.link]) ?_ ?_
        · intro it hit
          rcases List.mem_append.mp hit with h | h
          · exact List.mem_append.mpr (Or.inl (hsub it h))
          · simp only [List.mem_singleton] at h
            subst h
            simp
        · rw [List.map_append, List.nodup_append]
          refine ⟨hnd, by simp, ?_⟩
          intro a ha
          simp only [List.map_cons, List.map_nil, List.mem_singleton]
          intro hb
          subst hb
          rcases List.mem_map.mp ha with ⟨it, hit, hlink⟩
          exact hnotin (hlink ▸ hsub it hit)
      · rw [if_neg hg]
        exact ih acc seen hsub hnd

theorem selectorLoop_cons (page : String → List (Option ScrapedItem)) (sel : String)
    (rest : List String) (acc : List ScrapedItem) (seen : List String) :
    selectorLoop page (sel :: rest) acc seen =
      (if (pushItems (page sel) acc seen).1.length > 0 then pushItems (page sel) acc seen
       else selectorLoop page rest (pushItems (page sel) acc seen).1
              (pushItems (page sel) acc seen).2) := rfl

theorem selectorLoop_skip (page : String → List (Option ScrapedItem)) :
    ∀ pre rest, (∀ s ∈ pre, (pushItems (page s) [] []).1 = []) →
      selectorLoop page (pre ++ rest) [] [] = selectorLoop page rest [] [] := by
  intro pre
  induction pre with
  | nil => intro rest _; rfl
  | cons s pre ih =>
    intro rest hpre
    have hs : (pushItems (page s) [] []).1 = [] := hpre s (by simp)
    have hstate : pushItems (page s) [] [] = ([], []) := pushItems_empty_state (page s) [] hs
    rw [List.cons_append, selectorLoop_cons, hstate]
    simpa using ih rest (fun x hx => hpre x (by simp [hx]))

theorem selectorLoop_hit (page : String → List (Option ScrapedItem)) (sel : String)
    (rest : List String) (hyield : (pushItems (page sel) [] []).1 ≠ []) :
    selectorLoop page (sel :: rest) [] [] = pushItems (page sel) [] [] := by
  have hpos : (pushItems (page sel) [] []).1.length > 0 := List.length_pos.mpr hyield
  rw [selectorLoop_cons, if_pos hpos]

/-- C5 (amended): when some selector in the ordered list yields items
(every earlier selector yielding none), `extractContentItems` returns
exactly the first 20 deduplicated items of that winning selector, in
document order, with no merging from other selectors and no two items
sharing a resolved link; the result never exceeds 20 items, and it has
exactly 20 when the winning selector yields at least 20 items bearing
pairwise distinct links (the dedup pass can shrink a selector matching
20 or more extractable elements below the cap when links repeat). -/
theorem extractContentItems_first_selector_wins
    (page : String → List (Option ScrapedItem)) (anchors : List AnchorInfo)
    (resolve : String → String) (pre : List String) (sel : String) (post : List String)
    (hsplit : articleSelectors = pre ++ sel :: post)
    (hprev : ∀ s ∈ pre, (pushItems (page s) [] []).1 = [])
    (hyield : (pushItems (page sel) [] []).1 ≠ []) :
    extractContentItems page anchors resolve =
      ((pushItems (page sel) [] []).1).take 20 ∧
    (extractContentItems page anchors resolve).length ≤ 20 ∧
    ((extractContentItems page anchors resolve).map (fun it => it.link)).Nodup ∧
    (20 ≤ ((pushItems (page sel) [] []).1).length →
      (extractContentItems page anchors resolve).length = 20) := by
  have hloop : selectorLoop page articleSelectors [] [] = pushItems (page sel) [] [] := by
    rw [hsplit, selectorLoop_skip page pre (sel :: post) hprev,
        selectorLoop_hit page sel post hyield]
  have hmain : extractContentItems page anchors resolve =
      ((pushItems (page sel) [] []).1).take 20 := by
    unfold extractContentItems
    rw [hloop]
    have hne : (pushItems (page sel) [] []).1.length ≠ 0 := by
      simpa [List.length_eq_zero] using hyield
    have : ((pushItems (page sel) [] []).1.length == 0) = false := by
      simpa using hne
    simp [this]
  have hnodup : (((pushItems (page sel) [] []).1).map (fun it => it.link)).Nodup :=
    pushItems_links_nodup (page sel) [] [] (by simp) (by simp)
  refine ⟨hmain, ?_, ?_, ?_⟩
  · rw [hmain, List.length_take]
    exact Nat.min_le_left 20 _
  · rw [hmain, List.map_take]
    exact List.Nodup.sublist (List.take_sublist 20 _) hnodup
  · intro hlen
    rw [hmain, List.length_take]
    omega

/-- C5 witness: a page whose `article` selector matches 21 extractable
elements with pairwise distinct links yields exactly 20 items. -/
theorem extractContentItems_first_selector_wins_witness :
    (extractContentItems c5wPage [] c6resolve =
      ((pushItems (c5wPage "article") [] []).1).take 20 ∧
    (extractContentItems c5wPage [] c6resolve).length ≤ 20 ∧
    ((extractContentItems c5wPage [] c6resolve).map (fun it => it.link)).Nodup ∧
    (20 ≤ ((pushItems (c5wPage "article") [] []).1).length →
      (extractContentItems c5wPage [] c6resolve).length = 20)) ∧
    (extractContentItems c5wPage [] c6resolve).length = 20 :=
  have h := extractContentItems_first_selector_wins c5wPage [] c6resolve []
    "article" articleSelectors.tail rfl (by simp) (by decide)
  ⟨h, h.2.2.2 (by decide)⟩

/-- C5 counterexample: the `article` selector matches 21 extractable
elements, but they all share one link, so the dedup pass leaves a
single item — not the 20 promised for a page with 20 or more
extractable matches. -/
theorem extractContentItems_duplicate_links :
    (c5Page "article").countP (fun o => o.isSome) = 21 ∧
    extractContentItems c5Page [] c6resolve = [c5Item] := by
  decide

/-! ## Claim C6 -/

theorem probeLoop_all_fail (resolve : String → String) (probe : String → Bool) :
    ∀ paths, (∀ p ∈ paths, probe (resolve p) = false) →
      (probeLoop resolve probe paths).1 = none := by
  intro paths
  induction paths with
  | nil => intro _; rfl
  | cons path rest ih =>
    intro hall
    have hp : probe (resolve path) = false := hall path (by simp)
    show (if probe (resolve path) then (some (resolve path), [resolve path])
          else ((probeLoop resolve probe rest).1,
                resolve path :: (probeLoop resolve probe rest).2)).1 = none
    rw [hp]
    simpa using ih (fun x hx => hall x (by simp [hx]))

/-- C6 counterexample: the page carries a `rel="alternate"` feed link
before a plain feed link, and `discoverRssFeed` returns the resolved
alternate href — the first query (`link[type="application/rss+xml"],
link[type="application/atom+xml"]`) matches any `rel`, so there is no
non-alternate preference; the second conjunct exhibits that the first
non-alternate feed link is the other one. -/
theorem discoverRssFeed_no_rel_preference :
    discoverRssFeed c6resolve c6probeNo (.ok c6links) "https://site.example" =
      (.ok (some "https://site.example/a"), []) ∧
    (c6links.filter (fun t => !(t.rel == "alternate") && isFeedType t)).head? =
      some ⟨"", "application/rss+xml", some "/b"⟩ :=
  ⟨rfl, rfl⟩

/-- C6 (amended): for a safe page URL, (1) when the first feed-typed
`<link>` in document order — of any `rel` — has a non-empty href whose
resolved URL passes safety validation, `discoverRssFeed` returns that
resolved href and issues no conventional-path probe; (2) when the HTML
contains no feed-typed `<link>` and every conventional-path probe
fails, the result is `none`, not an error; (3) a page fetch failure
also yields `none`, not an error. -/
theorem discoverRssFeed_short_circuit (resolve : String → String) (probe : String → Bool)
    (links : List LinkTag) (url : String) (t : LinkTag) (href : String)
    (hurl : isValidUrl url = true) :
    ((links.filter isFeedType).head? = some t → t.href = some href → href ≠ "" →
      isValidUrl (resolve href) = true →
      discoverRssFeed resolve probe (.ok links) url =
        (.ok (some (resolve href)), [])) ∧
    (links.filter isFeedType = [] →
      (∀ p ∈ COMMON_FEED_PATHS, probe (resolve p) = false) →
      (discoverRssFeed resolve probe (.ok links) url).1 = .ok none) ∧
    (∀ e, (discoverRssFeed resolve probe (.error e) url).1 = .ok none) := by
  have hacc : ∃ q, validateUrl url = .accepted q := by
    unfold isValidUrl at hurl
    cases hv : validateUrl url with
    | accepted q => exact ⟨q, rfl⟩
    | rejected m c => rw [hv] at hurl; simp at hurl
  obtain ⟨q, hv⟩ := hacc
  refine ⟨?_, ?_, ?_⟩
  · intro hhead hhref hne hres
    simp [discoverRssFeed, hv, candidateHref, hhead, hhref, hne, hres]
  · intro hempty hprobe
    have halt : links.filter (fun t => t.rel == "alternate" && isFeedType t) = [] := by
      rw [List.filter_eq_nil_iff] at hempty ⊢
      intro a ha hcontra
      exact hempty a ha (((Bool.and_eq_true _ _).mp hcontra).2)
    simp [discoverRssFeed, hv, hempty, halt, candidateHref,
          probeLoop_all_fail resolve probe COMMON_FEED_PATHS hprobe]
  · intro e
    simp [discoverRssFeed, hv]

/-- C6 witness: a single plain feed link `/feed` is returned resolved
against the origin with no probes; a linkless page with failing probes
yields `none`; a failing page fetch yields `none`. -/
theorem discoverRssFeed_short_circuit_witness :
    discoverRssFeed c6resolve c6probeNo (.ok c6wLinks) "https://site.example" =
      (.ok (some "https://site.example/feed"), []) ∧
    (discoverRssFeed c6resolve c6probeNo (.ok []) "https://site.example").1 = .ok none ∧
    (discoverRssFeed c6resolve c6probeNo (.error "fetch failed") "https://site.example").1 =
      .ok none :=
  have h := discoverRssFeed_short_circuit c6resolve c6probeNo c6wLinks
    "https://site.example" ⟨"", "application/rss+xml", some "/feed"⟩ "/feed" (by decide)
  have h2 := discoverRssFeed_short_circuit c6resolve c6probeNo []
    "https://site.example" ⟨"", "application/rss+xml", some "/feed"⟩ "/feed" (by decide)
  ⟨h.1 rfl rfl (by decide) (by decide), h2.2.1 rfl (fun _ _ => rfl), h2.2.2 "fetch failed"⟩

/-! ## Claim C7 -/

/-- C7: `smartFetch` runs its four tiers in the fixed order — direct
feed parse of the input URL, direct-HTML discovery with direct parse of
each candidate, rendering-proxy-HTML discovery with direct parse of
each candidate, rendering-proxy feed parse of the original URL.  Each
tier runs only when every earlier tier yielded zero items, and the
first tier yielding items fixes the result: later-tier oracles are
quantified over, so the result provably never consults them. -/
theorem smartFetch_tier_order (d : String → List IntelItem)
    (hd hb : Except String (List LinkTag)) (bf : List IntelItem)
    (res : String → String) (url : String) (q : ParsedUrl)
    (hacc : validateUrl url = .accepted q) :
    (d url ≠ [] → ∀ hd' hb' bf',
      smartFetch ⟨d, hd', hb', bf', res⟩ url = .ok (d url)) ∧
    (d url = [] → discoveryTier d res hd ≠ [] → ∀ hb' bf',
      smartFetch ⟨d, hd, hb', bf', res⟩ url = .ok (discoveryTier d res hd)) ∧
    (d url = [] → discoveryTier d res hd = [] → discoveryTier d res hb ≠ [] → ∀ bf',
      smartFetch ⟨d, hd, hb, bf', res⟩ url = .ok (discoveryTier d res hb)) ∧
    (d url = [] → discoveryTier d res hd = [] → discoveryTier d res hb = [] →
      smartFetch ⟨d, hd, hb, bf, res⟩ url = .ok bf) := by
  refine ⟨?_, ?_, ?_, ?_⟩
  · intro h1 hd' hb' bf'
    have hpos : (d url).length > 0 := List.length_pos.mpr h1
    simp [smartFetch, hacc, hpos]
  · intro h1 h2 hb' bf'
    have hpos : (discoveryTier d res hd).length > 0 := List.length_pos.mpr h2
    simp [smartFetch, hacc, h1, hpos]
  · intro h1 h2 h3 bf'
    have hpos : (discoveryTier d res hb).length > 0 := List.length_pos.mpr h3
    simp [smartFetch, hacc, h1, h2, hpos]
  · intro h1 h2 h3
    simp [smartFetch, hacc, h1, h2, h3]

/-- C7 witness: a URL that itself parses as a feed short-circuits at
tier one, whatever the later tiers would do. -/
theorem smartFetch_tier_order_witness :
    smartFetch ⟨c7direct, .error "x", .error "x", [c7item, c7item], c6resolve⟩
        "https://site.example" = .ok (c7direct "https://site.example") ∧
    c7direct "https://site.example" = [c7item] :=
  ⟨(smartFetch_tier_order c7direct (.error "y") (.error "y") [] c6resolve
      "https://site.example" ⟨"https:", "site.example", "", ""⟩ rfl).1
    (by decide) (.error "x") (.error "x") [c7item, c7item], rfl⟩

/-! ## Claim C8 -/

theorem validateUrls_valid (urls : List String) :
    (validateUrls urls).1 = urls.filter (fun u => isValidUrl u) := by
  induction urls with
  | nil => rfl
  | cons u rest ih =>
    show (match validateUrl u with
          | .accepted _ => (u :: (validateUrls rest).1, (validateUrls rest).2)
          | .rejected m _ => ((validateUrls rest).1, (u, m) :: (validateUrls rest).2)).1 =
        List.filter (fun u => isValidUrl u) (u :: rest)
    cases hv : validateUrl u with
    | accepted q => simp [List.filter_cons, isValidUrl, hv, ih]
    | rejected m c => simp [List.filter_cons, isValidUrl, hv, ih]

theorem validateUrls_invalid (urls : List String) :
    (validateUrls urls).2.map Prod.fst = urls.filter (fun u => !(isValidUrl u)) := by
  induction urls with
  | nil => rfl
  | cons u rest ih =>
    show (match validateUrl u with
          | .accepted _ => (u :: (validateUrls rest).1, (validateUrls rest).2)
          | .rejected m _ => ((validateUrls rest).1, (u, m) :: (validateUrls rest).2)).2.map
            Prod.fst =
        List.filter (fun u => !(isValidUrl u)) (u :: rest)
    cases hv : validateUrl u with
    | accepted q => simp [List.filter_cons, isValidUrl, hv, ih]
    | rejected m c => simp [List.filter_cons, isValidUrl, hv, ih]

theorem forwardToWebhook_urls (post : String → Except String String) (urls : List String) :
    (forwardToWebhook post urls).map (fun o => o.url) = urls := by
  induction urls with
  | nil => rfl
  | cons u rest ih =>
    simp only [forwardToWebhook] at ih ⊢
    simp only [List.map_cons]
    cases hpost : post u <;> simp [hpost, ih]

/-- C8 counterexample: with inputs `[http://example.com, ftp://x.com]`
and a succeeding webhook, the batch result lists the invalid second
input first — the result array is not aligned to input order. -/
theorem processIntelUrls_not_input_order :
    processIntelUrls c8post ["http://example.com", "ftp://x.com"] =
      [⟨"ftp://x.com", false, none,
        some "URL validation failed: Invalid protocol: ftp:. Only HTTP and HTTPS are allowed."⟩,
       ⟨"http://example.com", true, some "forwarded", none⟩] ∧
    (processIntelUrls c8post ["http://example.com", "ftp://x.com"]).map (fun o => o.url) ≠
      ["http://example.com", "ftp://x.com"] :=
  ⟨rfl, by decide⟩

/-- C8 (amended): the batch result has exactly one outcome entry per
input URL — the entries for URLs failing validation first, in input
order, followed by the entries for forwarded URLs, in input order (a
permutation of the input, not the input order itself); every entry is
marked success with a payload or failure with an error reason, and a
per-item failure leaves every other entry in place. -/
theorem processIntelUrls_one_entry_per_url (post : String → Except String String)
    (urls : List String) :
    (processIntelUrls post urls).length = urls.length ∧
    (processIntelUrls post urls).map (fun o => o.url) =
      urls.filter (fun u => !(isValidUrl u)) ++ urls.filter (fun u => isValidUrl u) ∧
    ((processIntelUrls post urls).map (fun o => o.url)).Perm urls ∧
    (∀ o ∈ processIntelUrls post urls,
      (o.success = true → o.data.isSome ∧ o.error = none) ∧
      (o.success = false → o.error.isSome ∧ o.data = none)) := by
  have hvalid : (if (validateUrls urls).1.length > 0
      then forwardToWebhook post (validateUrls urls).1 else []) =
      forwardToWebhook post (validateUrls urls).1 := by
    by_cases h : (validateUrls urls).1.length > 0
    · rw [if_pos h]
    · rw [if_neg h]
      have : (validateUrls urls).1 = [] := by
        simpa [List.length_eq_zero] using h
      rw [this]
      rfl
  have hmap : (processIntelUrls post urls).map (fun o => o.url) =
      urls.filter (fun u => !(isValidUrl u)) ++ urls.filter (fun u => isValidUrl u) := by
    simp only [processIntelUrls]
    rw [hvalid, List.map_append, List.map_map, forwardToWebhook_urls,
        validateUrls_valid]
    congr 1
    rw [← validateUrls_invalid]
    rfl
  have hperm : ((processIntelUrls post urls).map (fun o => o.url)).Perm urls := by
    rw [hmap]
    exact (List.perm_append_comm).trans (List.filter_append_perm _ urls)
  refine ⟨?_, hmap, hperm, ?_⟩
  · have := hperm.length_eq
    simpa using this
  · intro o ho
    simp only [processIntelUrls] at ho
    rw [hvalid] at ho
    rcases List.mem_append.mp ho with h | h
    · rcases List.mem_map.mp h with ⟨p, _, hp⟩
      subst hp
      exact ⟨fun hs => by simp at hs, fun _ => by simp⟩
    · unfold forwardToWebhook at h
      rcases List.mem_map.mp h with ⟨u, _, hu⟩
      cases hpost : post u with
      | ok dta =>
        rw [hpost] at hu
        subst hu
        exact ⟨fun _ => by simp, fun hs => by simp at hs⟩
      | error e =>
        rw [hpost] at hu
        subst hu
        exact ⟨fun hs => by simp at hs, fun _ => by simp⟩

/-- C8 witness: the amended shape at the concrete two-URL batch. -/
theorem processIntelUrls_one_entry_per_url_witness :
    (processIntelUrls c8post ["http://example.com", "ftp://x.com"]).length = 2 ∧
    ((processIntelUrls c8post ["http://example.com", "ftp://x.com"]).map
      (fun o => o.url)).Perm ["http://example.com", "ftp://x.com"] :=
  have h := processIntelUrls_one_entry_per_url c8post ["http://example.com", "ftp://x.com"]
  ⟨h.1, h.2.2.1⟩

/-! ## Claim C9 -/

/-- The invariant every pushed intel item satisfies. -/
def goodIntelItem (it : IntelItem) : Prop :=
  it.title ≠ "" ∧ it.url ≠ "" ∧ it.title.length ≤ 200 ∧ it.content.length ≤ 4000

theorem jsSlice_length (s : String) (n : Nat) : (jsSlice s n).length = min n s.length := by
  show (s.data.take n).length = min n s.data.length
  exact List.length_take n s.data

theorem jsSlice_ne_empty (s : String) (n : Nat) (hs : s ≠ "") (hn : n ≠ 0) :
    jsSlice s n ≠ "" := by
  intro h
  have hdata : s.data.take n = [] := congrArg String.data h
  rcases List.take_eq_nil_iff.mp hdata with h1 | h1
  · exact hn h1
  · exact hs (congrArg String.mk h1 |>.trans rfl)

theorem parseRSSStep_good (source tier : String) (items : List IntelItem) (el : XmlEntry) :
    parseRSSStep source tier items el = items ∨
    ∃ it, parseRSSStep source tier items el = items ++ [it] ∧ goodIntelItem it := by
  unfold parseRSSStep
  by_cases hg : (jsOrStr [el.titleAttr, el.titlePlain] != "" &&
      jsOrStr [el.linkHref, el.linkPlain] != "") = true
  · rw [if_pos hg]
    refine Or.inr ⟨_, rfl, ?_, ?_, ?_, ?_⟩
    · have ht := ((Bool.and_eq_true _ _).mp hg).1
      have ht' : jsOrStr [el.titleAttr, el.titlePlain] ≠ "" := by simpa using ht
      exact jsSlice_ne_empty _ 200 ht' (by omega)
    · have hl := ((Bool.and_eq_true _ _).mp hg).2
      simpa using hl
    · rw [jsSlice_length]
      omega
    · rw [jsSlice_length]
      omega
  · rw [if_neg hg]
    exact Or.inl rfl

theorem parseRSS_foldl_length (source tier : String) :
    ∀ (es : List XmlEntry) (acc : List IntelItem),
      (es.foldl (parseRSSStep source tier) acc).length ≤ acc.length + es.length := by
  intro es
  induction es with
  | nil => intro acc; simp
  | cons el rest ih =>
    intro acc
    rw [List.foldl_cons]
    rcases parseRSSStep_good source tier acc el with h | ⟨it, h, -⟩
    · rw [h]
      have := ih acc
      simpa using Nat.le_trans this (by simp)
    · rw [h]
      have := ih (acc ++ [it])
      simp at this ⊢
      omega

theorem parseRSS_foldl_mem (source tier : String) :
    ∀ (es : List XmlEntry) (acc : List IntelItem) (it : IntelItem),
      it ∈ es.foldl (parseRSSStep source tier) acc → it ∈ acc ∨ goodIntelItem it := by
  intro es
  induction es with
  | nil => intro acc it h; exact Or.inl h
  | cons el rest ih =>
    intro acc it h
    rw [List.foldl_cons] at h
    rcases parseRSSStep_good source tier acc el with hstep | ⟨x, hstep, hx⟩
    · rw [hstep] at h
      exact ih acc it h
    · rw [hstep] at h
      rcases ih (acc ++ [x]) it h with hmem | hgood
      · rcases List.mem_append.mp hmem with h1 | h1
        · exact Or.inl h1
        · simp only [List.mem_singleton] at h1
          subst h1
          exact Or.inr hx
      · exact Or.inr hgood

/-- C9: `parseRSS` is a total function of the parse outcome — every
failure path (a throwing XML parse, caught by the surrounding catch)
yields the empty list; every result holds at most 25 items; and every
returned item has a non-empty title and link (entries lacking either
are skipped), with title truncated to 200 characters and content to
4000. -/
theorem parseRSS_total_and_bounded (doc : Except Unit ParsedXmlDoc) (source tier : String) :
    parseRSS (.error ()) source tier = [] ∧
    (parseRSS doc source tier).length ≤ 25 ∧
    (∀ it ∈ parseRSS doc source tier,
      it.title ≠ "" ∧ it.url ≠ "" ∧ it.title.length ≤ 200 ∧ it.content.length ≤ 4000) := by
  refine ⟨rfl, ?_, ?_⟩
  · cases doc with
    | error u => simp [parseRSS]
    | ok d =>
      have hlen := parseRSS_foldl_length source tier ((parseRSSEntries d).take 25) []
      have htake : ((parseRSSEntries d).take 25).length ≤ 25 := by
        rw [List.length_take]
        exact Nat.min_le_left 25 _
      calc (parseRSS (.ok d) source tier).length
          ≤ [].length + ((parseRSSEntries d).take 25).length := hlen
        _ ≤ 25 := by simp only [List.length_nil, Nat.zero_add]; exact htake
  · intro it hit
    cases doc with
    | error u => simp [parseRSS] at hit
    | ok d =>
      rcases parseRSS_foldl_mem source tier ((parseRSSEntries d).take 25) [] it hit with h | h
      · simp at h
      · exact h

/-- C9 witness: the concrete two-entry document yields one item (the
linkless entry is skipped), within all bounds. -/
theorem parseRSS_total_and_bounded_witness :
    parseRSS (.ok c9doc) "feed" "direct" =
      [⟨"https://site.example/aMon, 01 Jan 2024", "Hello", "https://site.example/a",
        "body", "Mon, 01 Jan 2024", "feed", "direct"⟩] ∧
    (parseRSS (.ok c9doc) "feed" "direct").length ≤ 25 ∧
    (∀ it ∈ parseRSS (.ok c9doc) "feed" "direct",
      it.title ≠ "" ∧ it.url ≠ "" ∧ it.title.length ≤ 200 ∧ it.content.length ≤ 4000) :=
  have h := parseRSS_total_and_bounded (.ok c9doc) "feed" "direct"
  ⟨by decide, h.2.1, h.2.2⟩
